import Mathlib

/-!
Verification of the NCRTC websocket train-tracking service.

The development shallowly embeds the two core source files:

* `script.py` — the motion simulator (`NCRTCTrain`, `SimulationManager`);
* `main.py`  — the enrichment pipeline (`determine_direction`,
  `get_train_details_from_db`, `process_payload` and its in-memory cache).

Positions, speeds and times are modelled as rationals; Python's `round`
builtin (round-half-to-even) is modelled exactly by `pyRound`/`round_to`.
Randomness (`random.random`, `random.uniform`, wall-clock deltas) is passed
in explicitly as parameters, and the relational store behind
`get_train_details_from_db` is modelled as an optional in-memory store,
`none` standing for a connection/query failure.
-/

namespace Ncrtc

/-- Python's builtin rounding of a rational to the nearest integer,
half-to-even (banker's rounding), as `round` does on exact values. -/
def pyRound (x : ℚ) : ℤ :=
  if x - ⌊x⌋ < 1/2 then ⌊x⌋
  else if 1/2 < x - ⌊x⌋ then ⌊x⌋ + 1
  else if ⌊x⌋ % 2 = 0 then ⌊x⌋ else ⌊x⌋ + 1

/-- Python's `round(x, n)` to `n` decimal digits. -/
def round_to (n : ℕ) (x : ℚ) : ℚ := (pyRound (x * 10 ^ n) : ℚ) / 10 ^ n

theorem pyRound_le (x : ℚ) : (pyRound x : ℚ) ≤ x + 1/2 := by
  have h1 : (⌊x⌋ : ℚ) ≤ x := Int.floor_le x
  unfold pyRound
  split_ifs with hlt hgt hev
  · linarith
  · push_cast; linarith
  · linarith
  · have : x - ⌊x⌋ = 1/2 := le_antisymm (not_lt.mp hgt) (not_lt.mp hlt)
    push_cast; linarith

theorem le_pyRound (x : ℚ) : x - 1/2 ≤ (pyRound x : ℚ) := by
  have h2 : x < (⌊x⌋ : ℚ) + 1 := Int.lt_floor_add_one x
  unfold pyRound
  split_ifs with hlt hgt hev
  · linarith
  · push_cast; linarith
  · have : x - ⌊x⌋ = 1/2 := le_antisymm (not_lt.mp hgt) (not_lt.mp hlt)
    linarith
  · push_cast; linarith

theorem pyRound_mono {x y : ℚ} (h : x ≤ y) : pyRound x ≤ pyRound y := by
  have hf : ⌊x⌋ ≤ ⌊y⌋ := Int.floor_mono h
  rcases lt_or_eq_of_le hf with hlt | heq
  · have h1 : pyRound x ≤ ⌊x⌋ + 1 := by
      unfold pyRound; split_ifs <;> omega
    have h2 : ⌊y⌋ ≤ pyRound y := by
      unfold pyRound; split_ifs <;> omega
    omega
  · have hfrac : x - ⌊x⌋ ≤ y - ⌊y⌋ := by
      rw [← heq]; push_cast; linarith
    unfold pyRound
    rw [← heq]
    rw [← heq] at hfrac
    split_ifs <;> first
      | omega
      | (exfalso; linarith)

theorem round_to_mono (n : ℕ) {x y : ℚ} (h : x ≤ y) : round_to n x ≤ round_to n y := by
  unfold round_to
  have hp : (0:ℚ) < 10 ^ n := by positivity
  have hm : x * 10 ^ n ≤ y * 10 ^ n := mul_le_mul_of_nonneg_right h (le_of_lt hp)
  have := pyRound_mono hm
  exact div_le_div_of_nonneg_right (by exact_mod_cast this) hp.le

theorem round_to_le_add (n : ℕ) (x : ℚ) : round_to n x ≤ x + 1 / (2 * 10 ^ n) := by
  unfold round_to
  have hp : (0:ℚ) < 10 ^ n := by positivity
  have h := pyRound_le (x * 10 ^ n)
  rw [div_le_iff₀ hp]
  calc (pyRound (x * 10 ^ n) : ℚ) ≤ x * 10 ^ n + 1/2 := h
    _ = (x + 1 / (2 * 10 ^ n)) * 10 ^ n := by field_simp; ring

theorem le_round_to_add (n : ℕ) (x : ℚ) : x - 1 / (2 * 10 ^ n) ≤ round_to n x := by
  unfold round_to
  have hp : (0:ℚ) < 10 ^ n := by positivity
  have h := le_pyRound (x * 10 ^ n)
  rw [le_div_iff₀ hp]
  calc (x - 1 / (2 * 10 ^ n)) * 10 ^ n = x * 10 ^ n - 1/2 := by field_simp; ring
    _ ≤ (pyRound (x * 10 ^ n) : ℚ) := h

/-! ## The motion simulator (script.py) -/

/-- Corridor length in meters (`TRACK_LENGTH_METERS` in script.py). -/
def TRACK_LENGTH_METERS : ℚ := 82150

/-- Sahibabad-side endpoint coordinates (`START_GEO`). -/
def START_GEO : ℚ × ℚ := (28.5905, 77.2526)

/-- Modipuram-side endpoint coordinates (`END_GEO`). -/
def END_GEO : ℚ × ℚ := (29.0772, 77.7169)

/-- State of one simulated train (class `NCRTCTrain`).  The wall-clock
bookkeeping field `last_update_time` is represented by passing the elapsed
`time_delta` to `update_physics` explicitly. -/
structure NCRTCTrain where
  journey_id : String
  sensor_id : String
  length : ℚ
  direction : ℤ
  target_speed : ℚ
  current_pos_meters : ℚ
  current_speed : ℚ
  is_finished : Bool
deriving DecidableEq

/-- `NCRTCTrain.__init__`, with the random draws passed in: `dir` is the coin
flip for the direction and `u` the `random.uniform(28.0, 42.0)` target-speed
magnitude. -/
def NCRTCTrain.spawn (jid sid : String) (dir : ℤ) (u : ℚ) : NCRTCTrain :=
  if dir = 1 then
    { journey_id := jid, sensor_id := sid, length := 114.85715, direction := 1,
      target_speed := u, current_pos_meters := 0, current_speed := 0,
      is_finished := false }
  else
    { journey_id := jid, sensor_id := sid, length := 114.85715, direction := -1,
      target_speed := -u, current_pos_meters := TRACK_LENGTH_METERS,
      current_speed := 0, is_finished := false }

/-- `NCRTCTrain.update_physics`: `time_delta` is the elapsed wall-clock time
and `noise` the `random.uniform(-0.5, 0.5)` speed perturbation.  Returns the
updated train together with `abs(live_speed)`, the value the method returns. -/
def NCRTCTrain.update_physics (t : NCRTCTrain) (time_delta noise : ℚ) :
    NCRTCTrain × ℚ :=
  let speed :=
    if |t.current_speed| < |t.target_speed| then
      t.current_speed + 2 * (t.direction : ℚ) * time_delta
    else t.current_speed
  let live_speed := speed + noise
  let pos := t.current_pos_meters + live_speed * time_delta
  let fin :=
    if t.direction = 1 ∧ pos ≥ TRACK_LENGTH_METERS then true
    else if t.direction = -1 ∧ pos ≤ 0 then true
    else t.is_finished
  ({ t with current_speed := speed, current_pos_meters := pos, is_finished := fin },
   |live_speed|)

/-- `NCRTCTrain.interpolate_geo`: linear interpolation between the two fixed
endpoints, with the fraction clamped into `[0, 1]`. -/
def interpolate_geo (meters : ℚ) : ℚ × ℚ :=
  let fraction := max 0 (min 1 (meters / TRACK_LENGTH_METERS))
  (START_GEO.1 + (END_GEO.1 - START_GEO.1) * fraction,
   START_GEO.2 + (END_GEO.2 - START_GEO.2) * fraction)

/-- Clamping of a position into the track bounds, `max(0, min(L, x))` as in
`get_payload`. -/
def clampTrack (x : ℚ) : ℚ := max 0 (min TRACK_LENGTH_METERS x)

/-- The clamped head optical position computed by `get_payload` (the head is
`current_pos_meters` for both directions). -/
def NCRTCTrain.head_opt (t : NCRTCTrain) : ℚ := clampTrack t.current_pos_meters

/-- The clamped tail optical position computed by `get_payload`: one train
length behind the head in the direction of travel. -/
def NCRTCTrain.tail_opt (t : NCRTCTrain) : ℚ :=
  clampTrack (if t.direction = 1 then t.current_pos_meters - t.length
              else t.current_pos_meters + t.length)

/-- The JSON sensor event produced by `NCRTCTrain.get_payload` (numeric and
identity fields; the constant string/bool fields `eventTime`, `predicted`,
`headLinePositionUnit`, `tailLinePositionUnit`,
`headOpticalPositionConfidence` are omitted). -/
structure Payload where
  journeyId : String
  sensorId : String
  length : ℚ
  speed : ℚ
  leftOpticalPosition : ℚ
  rightOpticalPosition : ℚ
  signalLeftOpticalPosition : ℚ
  signalRightOpticalPosition : ℚ
  headOpticalPosition : ℚ
  headOpticalPositionRaw : ℚ
  headGeoLocation : ℚ × ℚ
  headChannel : ℤ
  headLinePosition : ℚ
  tailOpticalPosition : ℚ
  tailOpticalPositionRaw : ℚ
  tailGeoLocation : ℚ × ℚ
  tailChannel : ℤ
  tailLinePosition : ℚ
  linePosition : ℚ
deriving DecidableEq

/-- `NCRTCTrain.get_payload`: first advances the physics, then assembles the
event.  `sigL` and `sigR` are the two `random.uniform(-1, 1)` draws added to
the signal optical positions. -/
def NCRTCTrain.get_payload (t : NCRTCTrain) (time_delta noise sigL sigR : ℚ) :
    NCRTCTrain × Payload :=
  let r := t.update_physics time_delta noise
  let t2 := r.1
  let speed_abs := r.2
  let head_opt := t2.head_opt
  let tail_opt := t2.tail_opt
  let left_opt := min head_opt tail_opt
  let right_opt := max head_opt tail_opt
  let raw_offset : ℚ := 2105.71
  (t2,
   { journeyId := t2.journey_id, sensorId := t2.sensor_id, length := t2.length,
     speed := round_to 4 speed_abs,
     leftOpticalPosition := round_to 2 left_opt,
     rightOpticalPosition := round_to 2 right_opt,
     signalLeftOpticalPosition := round_to 3 (left_opt + sigL),
     signalRightOpticalPosition := round_to 3 (right_opt + sigR),
     headOpticalPosition := round_to 2 head_opt,
     headOpticalPositionRaw := round_to 3 (head_opt + raw_offset),
     headGeoLocation := interpolate_geo head_opt,
     headChannel := ⌊head_opt / 6.4⌋,
     headLinePosition := round_to 3 head_opt,
     tailOpticalPosition := round_to 2 tail_opt,
     tailOpticalPositionRaw := round_to 3 (tail_opt + raw_offset),
     tailGeoLocation := interpolate_geo tail_opt,
     tailChannel := ⌊tail_opt / 6.4⌋,
     tailLinePosition := round_to 3 tail_opt,
     linePosition := round_to 3 ((head_opt + tail_opt) / 2) })

/-- Per-train random inputs consumed by one `get_payload` call during a tick. -/
structure AdvIn where
  dt : ℚ
  noise : ℚ
  sigL : ℚ
  sigR : ℚ

/-- Random inputs for one `SimulationManager.tick` call: the outcome of the
spawn roll `random.random() < 0.05`, the train that would be spawned, and the
per-position physics randomness. -/
structure TickOracle where
  spawnRoll : Bool
  newTrain : NCRTCTrain
  ins : ℕ → AdvIn

/-- The collection loop of `SimulationManager.tick`: a train whose
`is_finished` flag is already set is dropped without emitting anything; every
other train is advanced via `get_payload` and kept together with its event. -/
def collectTrains (ins : ℕ → AdvIn) : ℕ → List NCRTCTrain → List NCRTCTrain × List Payload
  | _, [] => ([], [])
  | i, t :: ts =>
    if t.is_finished then collectTrains ins (i + 1) ts
    else
      let a := ins i
      let r := t.get_payload a.dt a.noise a.sigL a.sigR
      let rest := collectTrains ins (i + 1) ts
      (r.1 :: rest.1, r.2 :: rest.2)

/-- `SimulationManager.tick` over the fleet state `self.active_trains`:
spawn at most one train when fewer than 4 are active and the roll succeeds,
then run the collection loop.  Returns the new fleet and the batch. -/
def SimulationManager.tick (s : List NCRTCTrain) (o : TickOracle) :
    List NCRTCTrain × List Payload :=
  let s1 := if s.length < 4 ∧ o.spawnRoll = true then s ++ [o.newTrain] else s
  collectTrains o.ins 0 s1

/-- Fleet states reachable from the initial empty `active_trains` list by
`tick` calls. -/
inductive SimulationManager.Reachable : List NCRTCTrain → Prop
  | init : SimulationManager.Reachable []
  | step (s : List NCRTCTrain) (o : TickOracle) :
      SimulationManager.Reachable s →
      SimulationManager.Reachable (SimulationManager.tick s o).1

/-- Iterated `update_physics` along a stream of (time_delta, noise) inputs:
the repeated advancing of a single train. -/
def runTrain (t : NCRTCTrain) (ins : ℕ → ℚ × ℚ) : ℕ → NCRTCTrain
  | 0 => t
  | n + 1 => ((runTrain t ins n).update_physics (ins n).1 (ins n).2).1

/-! ## The enrichment pipeline (main.py) -/

/-- Direction labels returned by `determine_direction`. -/
inductive Direction where
  | FORWARD
  | BACKWARD
  | STOP
deriving DecidableEq

/-- One entry of the global `active_train_cache` dict, as built by
`process_payload`. -/
structure CacheEntry where
  train_no : String
  name : String
  last_pos : ℚ
  direction : Direction
  scheduled_station : String
  train_length : ℚ
  coach_count : ℕ
deriving DecidableEq

/-- The global `active_train_cache`, keyed by journey id. -/
abbrev Cache := List (String × CacheEntry)

/-- `determine_direction` from main.py: instantaneous head/tail geometry with
a 10 m noise buffer first, then the cached last position with a 0.5 m margin,
defaulting to STOP. -/
def determine_direction (cache : Cache) (j_id : String)
    (current_meters head_meters tail_meters : ℚ) : Direction :=
  if head_meters > tail_meters + 10 then Direction.FORWARD
  else if head_meters < tail_meters - 10 then Direction.BACKWARD
  else
    match cache.lookup j_id with
    | some entry =>
      let last_pos := entry.last_pos
      if current_meters > last_pos + 0.5 then Direction.FORWARD
      else if current_meters < last_pos - 0.5 then Direction.BACKWARD
      else if |current_meters - last_pos| ≤ 0.5 then Direction.STOP
      else Direction.STOP
    | none => Direction.STOP

/-- One row of `ncrtc.stations`. -/
structure Station where
  station_code : String
  position_km : ℚ

/-- One row of `ncrtc.train_timetable_summary`; `start_time` in minutes of
the day. -/
structure TimetableRow where
  train_no : String
  name : String
  start_station : String
  scheduled_station : String
  last_station : String
  start_time : ℚ

/-- The dict returned by `get_train_details_from_db`; `scheduled_station` is
optional because two of the return branches omit that key. -/
structure TrainDetails where
  train_no : String
  name : String
  scheduled_station : Option String
deriving DecidableEq

/-- The nearest-station query, `ORDER BY ABS(position_km - $1) ASC LIMIT 1`.
Rows tied in distance are ordered arbitrarily by the store; the model keeps
the earliest minimizing row. -/
def nearestStation (stations : List Station) (km : ℚ) : Option Station :=
  stations.foldl
    (fun acc s =>
      match acc with
      | none => some s
      | some b => if |s.position_km - km| < |b.position_km - km| then some s else acc)
    none

/-- The WHERE clause of the second query: the station code matches one of
start/scheduled/last station, and the start time falls in the ±45-minute
window around the current time. -/
def matchesStationTime (code : String) (t : ℚ) (row : TimetableRow) : Bool :=
  (row.start_station == code || row.scheduled_station == code || row.last_station == code)
    && (t - 45 ≤ row.start_time && row.start_time ≤ t + 45)

/-- The two tables read by the resolver. -/
structure Store where
  stations : List Station
  timetable : List TimetableRow

/-- `get_train_details_from_db`: `store = none` models the caught
connection/query failure branch (the `except` handler); otherwise the
two-step lookup runs against the in-memory tables. -/
def get_train_details_from_db (store : Option Store) (current_km current_time : ℚ) :
    TrainDetails :=
  match store with
  | none => { train_no := "N/A", name := "N/A", scheduled_station := some "N/A" }
  | some db =>
    match nearestStation db.stations current_km with
    | none => { train_no := "Unknown", name := "N/A", scheduled_station := none }
    | some st =>
      match db.timetable.find? (matchesStationTime st.station_code current_time) with
      | some row =>
        { train_no := row.train_no, name := row.name,
          scheduled_station := some row.scheduled_station }
      | none => { train_no := "T-Unknown", name := "N/A", scheduled_station := none }

/-- The fields of one raw sensor event that `process_payload` reads. -/
structure RawEvent where
  journeyId : String
  headLinePosition : ℚ
  tailLinePosition : ℚ
  speed : ℚ
  length : ℚ
  headGeoLocation : ℚ × ℚ
deriving DecidableEq

/-- The `live_status` block of an enriched record. -/
structure LiveStatus where
  speed : ℚ
  position_km : ℚ
  latitude : ℚ
  longitude : ℚ
  direction : Direction
  is_moving_forward : Bool
  next_station : String
  train_length_meters : ℚ
  coach_count : ℕ
deriving DecidableEq

/-- One enriched output record (`position_meters` is the single field of the
`visualization` block). -/
structure EnrichedTrain where
  train_id : String
  train_name : String
  journey_id : String
  live_status : LiveStatus
  position_meters : ℚ
deriving DecidableEq

/-- In-place update of the cached entry for key `j`, as the dict mutation
`active_train_cache[j_id]["last_pos"] = ...` / `["direction"] = ...`. -/
def updateEntry (cache : Cache) (j : String) (pos : ℚ) (dir : Direction) : Cache :=
  cache.map fun p =>
    if p.1 = j then (p.1, { p.2 with last_pos := pos, direction := dir }) else p

/-- One iteration of the `for train in train_list` loop of `process_payload`
for a single raw event: returns the (optional) enriched record, the updated
cache, and the number of resolver calls made (0 or 1).  The resolver is
abstracted as a function of `current_km` (the wall-clock time argument is
fixed by the caller). -/
def processTrain (cache : Cache) (resolver : ℚ → TrainDetails) (ev : RawEvent) :
    Option EnrichedTrain × Cache × ℕ :=
  if ev.journeyId = "" then (none, cache, 0)
  else
    let current_meters := ev.headLinePosition
    let head_meters := ev.headLinePosition
    let tail_meters := ev.tailLinePosition
    let current_km := round_to 2 (current_meters / 1000)
    let direction_status :=
      determine_direction cache ev.journeyId current_meters head_meters tail_meters
    let r : Cache × CacheEntry × ℕ :=
      match cache.lookup ev.journeyId with
      | none =>
        let train_details := resolver current_km
        let entry : CacheEntry :=
          { train_no := train_details.train_no, name := train_details.name,
            last_pos := current_meters, direction := direction_status,
            scheduled_station := train_details.scheduled_station.getD "N/A",
            train_length := ev.length,
            coach_count := if ev.length > 50 then 6 else 3 }
        ((ev.journeyId, entry) :: cache, entry, 1)
      | some e =>
        let entry := { e with last_pos := current_meters, direction := direction_status }
        (updateEntry cache ev.journeyId current_meters direction_status, entry, 0)
    let cache_data := r.2.1
    (some
      { train_id := cache_data.train_no, train_name := cache_data.name,
        journey_id := ev.journeyId,
        live_status :=
          { speed := ev.speed, position_km := current_km,
            latitude := ev.headGeoLocation.1, longitude := ev.headGeoLocation.2,
            direction := direction_status,
            is_moving_forward := direction_status == Direction.FORWARD,
            next_station := cache_data.scheduled_station,
            train_length_meters := cache_data.train_length,
            coach_count := cache_data.coach_count },
        position_meters := current_meters },
     r.1, r.2.2)

/-! ## Concrete fixtures used by witnesses and counterexamples -/

/-- Cache entry fixture: a journey last seen at 1000 m. -/
def entry0 : CacheEntry :=
  { train_no := "R1", name := "RAPIDX", last_pos := 1000, direction := Direction.STOP,
    scheduled_station := "A21", train_length := 100, coach_count := 6 }

/-- Cache fixture holding `entry0` under journey id "J1". -/
def cache0 : Cache := [("J1", entry0)]

/-- Raw event fixture with a non-empty journey id. -/
def ev0 : RawEvent :=
  { journeyId := "J1", headLinePosition := 1000, tailLinePosition := 900,
    speed := 30, length := 114.85715, headGeoLocation := (28.6, 77.3) }

/-- Resolver fixture returning a fixed identity. -/
def resolver0 : ℚ → TrainDetails :=
  fun _ => { train_no := "R1", name := "RAPIDX", scheduled_station := some "A21" }

/-- Store fixture with one station and an empty timetable. -/
def store1 : Store := { stations := [{ station_code := "A21", position_km := 1 }], timetable := [] }

/-- Train fixture for the tick-lifecycle counterexample: 1 m/s² short of the
Meerut end, full speed, not yet finished; one 1-second tick with zero noise
pushes it past the end of the track. -/
def tNearEnd : NCRTCTrain :=
  { journey_id := "J1", sensor_id := "S1", length := 114.85715, direction := 1,
    target_speed := 30, current_pos_meters := 82149, current_speed := 30,
    is_finished := false }

/-- Oracle fixture: no spawn, unit time steps, no noise. -/
def oUnit : TickOracle :=
  { spawnRoll := false, newTrain := tNearEnd, ins := fun _ => ⟨1, 0, 0, 0⟩ }

/-- Train fixture for the acceleration counterexample: commanded speed 29,
target 30. -/
def tAccel : NCRTCTrain :=
  { journey_id := "J1", sensor_id := "S1", length := 114.85715, direction := 1,
    target_speed := 30, current_pos_meters := 0, current_speed := 29,
    is_finished := false }

/-- Train fixture for the geometry/rounding counterexample: after a 2/7 s
step at 28 m/s it sits at 10.0004 m, so the clamped head/tail gap is 10.0004 m
but the emitted (rounded) gap is exactly 10 m. -/
def tBoundary : NCRTCTrain :=
  { journey_id := "J1", sensor_id := "S1", length := 114.85715, direction := 1,
    target_speed := 28, current_pos_meters := 2.0004, current_speed := 28,
    is_finished := false }

/-- Freshly spawned forward train fixture. -/
def tSpawned : NCRTCTrain := NCRTCTrain.spawn "J1" "S1" 1 28

/-! ## C1: decision order of the direction classifier -/

/-- C1: for every call of the classifier, the geometry check with the 10 m
buffer decides first (head ahead of tail → FORWARD, tail ahead of head →
BACKWARD); otherwise, when the cache holds an entry for the journey, the
cached last position decides with the 0.5 m margin (greater → FORWARD,
lesser → BACKWARD, within the margin → STOP); and with no cache entry and
inconclusive geometry the result is STOP. -/
theorem c1_classifier_decision_order (cache : Cache) (j : String) (cur hd tl : ℚ) :
    (hd > tl + 10 → determine_direction cache j cur hd tl = Direction.FORWARD) ∧
    (hd < tl - 10 → determine_direction cache j cur hd tl = Direction.BACKWARD) ∧
    (¬ hd > tl + 10 → ¬ hd < tl - 10 →
      ∀ e, cache.lookup j = some e →
        (cur > e.last_pos + 0.5 →
          determine_direction cache j cur hd tl = Direction.FORWARD) ∧
        (cur < e.last_pos - 0.5 →
          determine_direction cache j cur hd tl = Direction.BACKWARD) ∧
        (|cur - e.last_pos| ≤ 0.5 →
          determine_direction cache j cur hd tl = Direction.STOP)) ∧
    (¬ hd > tl + 10 → ¬ hd < tl - 10 → cache.lookup j = none →
      determine_direction cache j cur hd tl = Direction.STOP) := by
  refine ⟨fun h => ?_, fun h => ?_, fun h1 h2 e he => ⟨fun hc => ?_, fun hc => ?_, fun hc => ?_⟩,
    fun h1 h2 hn => ?_⟩
  · simp [determine_direction, h]
  · have h' : ¬ hd > tl + 10 := by linarith
    simp [determine_direction, h, h']
  · simp [determine_direction, h1, h2, he, hc]
  · have hA : ¬ cur > e.last_pos + 0.5 := by linarith
    simp [determine_direction, h1, h2, he, hc, hA]
  · rw [abs_le] at hc
    have hA : ¬ cur > e.last_pos + 0.5 := by
      have := hc.2; intro hcon; rw [show (0.5 : ℚ) = 1/2 by norm_num] at hcon; linarith
    have hB : ¬ cur < e.last_pos - 0.5 := by
      have := hc.1; intro hcon; rw [show (0.5 : ℚ) = 1/2 by norm_num] at hcon; linarith
    simp [determine_direction, h1, h2, he, hA, hB]
  · simp [determine_direction, h1, h2, hn]

/-- Witness for C1 at the spec's own example: head ≈ tail (500/500), cached
last position 1000; plus a geometry-decided call and the no-entry fallback. -/
theorem c1_classifier_decision_order_witness :
    determine_direction cache0 "J1" 1002 500 500 = Direction.FORWARD ∧
    determine_direction cache0 "J1" 998 500 500 = Direction.BACKWARD ∧
    determine_direction cache0 "J1" 1000.2 500 500 = Direction.STOP ∧
    determine_direction cache0 "J1" 0 100 50 = Direction.FORWARD ∧
    determine_direction [] "J1" 0 500 500 = Direction.STOP := by
  have hl : cache0.lookup "J1" = some entry0 := by simp [cache0, List.lookup]
  have hn : (([] : Cache).lookup "J1") = none := rfl
  refine ⟨((c1_classifier_decision_order cache0 "J1" 1002 500 500).2.2.1
      (by norm_num) (by norm_num) entry0 hl).1 (by norm_num [entry0]),
    ((c1_classifier_decision_order cache0 "J1" 998 500 500).2.2.1
      (by norm_num) (by norm_num) entry0 hl).2.1 (by norm_num [entry0]),
    ((c1_classifier_decision_order cache0 "J1" 1000.2 500 500).2.2.1
      (by norm_num) (by norm_num) entry0 hl).2.2 (by norm_num [entry0, abs_le]),
    (c1_classifier_decision_order cache0 "J1" 0 100 50).1 (by norm_num),
    (c1_classifier_decision_order [] "J1" 0 500 500).2.2.2
      (by norm_num) (by norm_num) hn⟩

/-! ## C2: resolver error handling and sentinels -/

/-- C2: the identity resolver is total over every store outcome: a store
error (`none`) yields the caught-exception sentinel instead of propagating;
an answering store with no nearest-station row yields the "Unknown" sentinel;
a found station with no timetable row in the ±45-minute window yields the
distinct "T-Unknown" sentinel; the two sentinels are distinguishable by their
train_no token; and a pipeline step driven by an erroring resolver still
produces an output record (carrying the sentinel identity when the journey is
new). -/
theorem c2_resolver_error_handling :
    (∀ km tm, get_train_details_from_db none km tm =
      { train_no := "N/A", name := "N/A", scheduled_station := some "N/A" }) ∧
    (∀ (db : Store) km tm, nearestStation db.stations km = none →
      get_train_details_from_db (some db) km tm =
        { train_no := "Unknown", name := "N/A", scheduled_station := none }) ∧
    (∀ (db : Store) km tm st, nearestStation db.stations km = some st →
      db.timetable.find? (matchesStationTime st.station_code tm) = none →
      get_train_details_from_db (some db) km tm =
        { train_no := "T-Unknown", name := "N/A", scheduled_station := none }) ∧
    ("T-Unknown" ≠ "Unknown") ∧
    (∀ (cache : Cache) (ev : RawEvent) (tm : ℚ), ev.journeyId ≠ "" →
      ∃ out, (processTrain cache (fun km => get_train_details_from_db none km tm) ev).1 =
        some out) ∧
    (∀ (cache : Cache) (ev : RawEvent) (tm : ℚ), ev.journeyId ≠ "" →
      cache.lookup ev.journeyId = none →
      ∃ out, (processTrain cache (fun km => get_train_details_from_db none km tm) ev).1 =
          some out ∧ out.train_id = "N/A") := by
  refine ⟨fun km tm => rfl, fun db km tm h => ?_, fun db km tm st h1 h2 => ?_,
    by decide, fun cache ev tm hj => ?_, fun cache ev tm hj hn => ?_⟩
  · simp [get_train_details_from_db, h]
  · simp [get_train_details_from_db, h1, h2]
  · simp only [processTrain, if_neg hj]
    rcases hc : cache.lookup ev.journeyId with _ | e <;> simp [hc]
  · simp [processTrain, if_neg hj, hn, get_train_details_from_db]

/-- Witness for C2: the erroring store, an empty station table, a station with
an empty timetable, and a pipeline step over an erroring resolver with the
fixture event. -/
theorem c2_resolver_error_handling_witness :
    (get_train_details_from_db none 1 600 =
      { train_no := "N/A", name := "N/A", scheduled_station := some "N/A" }) ∧
    (get_train_details_from_db (some { stations := [], timetable := [] }) 1 600 =
      { train_no := "Unknown", name := "N/A", scheduled_station := none }) ∧
    (get_train_details_from_db (some store1) 1 600 =
      { train_no := "T-Unknown", name := "N/A", scheduled_station := none }) ∧
    (∃ out, (processTrain [] (fun km => get_train_details_from_db none km 600) ev0).1 =
      some out ∧ out.train_id = "N/A") := by
  refine ⟨c2_resolver_error_handling.1 1 600,
    c2_resolver_error_handling.2.1 { stations := [], timetable := [] } 1 600 rfl,
    c2_resolver_error_handling.2.2.1 store1 1 600 { station_code := "A21", position_km := 1 }
      (by simp [store1, nearestStation]) rfl,
    c2_resolver_error_handling.2.2.2.2.2 [] ev0 600 (by simp [ev0]) rfl⟩

/-! ## C8: round-trip of the reported position -/

/-- C8: every enriched record produced for an event with a journey id reports
`live_status.position_km` as the event's head line position divided by 1000
and rounded to 2 decimals, and `visualization.position_meters` as the head
line position itself. -/
theorem c8_position_roundtrip (cache : Cache) (resolver : ℚ → TrainDetails)
    (ev : RawEvent) (hj : ev.journeyId ≠ "") :
    ∃ out, (processTrain cache resolver ev).1 = some out ∧
      out.live_status.position_km = round_to 2 (ev.headLinePosition / 1000) ∧
      out.position_meters = ev.headLinePosition := by
  simp only [processTrain, if_neg hj]
  rcases hc : cache.lookup ev.journeyId with _ | e <;> simp [hc]

/-- Witness for C8 on the fixture event over the empty cache. -/
theorem c8_position_roundtrip_witness :
    ∃ out, (processTrain [] resolver0 ev0).1 = some out ∧
      out.live_status.position_km = round_to 2 (ev0.headLinePosition / 1000) ∧
      out.position_meters = ev0.headLinePosition :=
  c8_position_roundtrip [] resolver0 ev0 (by simp [ev0])

/-! ## C6: the resolver is consulted once per journey -/

/-- Looking up the updated key after an in-place cache update returns the
transformed first entry. -/
theorem lookup_updateEntry (cache : Cache) (j : String) (pos : ℚ) (dir : Direction) :
    (updateEntry cache j pos dir).lookup j =
      (cache.lookup j).map fun e => { e with last_pos := pos, direction := dir } := by
  induction cache with
  | nil => rfl
  | cons p ps ih =>
    rcases p with ⟨k, e⟩
    by_cases h : k = j
    · subst h
      have hu : updateEntry ((k, e) :: ps) k pos dir =
          (k, { e with last_pos := pos, direction := dir }) :: updateEntry ps k pos dir := by
        simp only [updateEntry, List.map_cons, eq_self_iff_true, if_true]
      rw [hu]
      simp [List.lookup]
    · have hu : updateEntry ((k, e) :: ps) j pos dir = (k, e) :: updateEntry ps j pos dir := by
        simp only [updateEntry, List.map_cons, if_neg h]
      rw [hu]
      have hb : (j == k) = false := by
        simp only [beq_eq_false_iff_ne, ne_eq]
        exact fun hc => h hc.symm
      simp only [List.lookup, hb]
      exact ih

/-- C6: a journey id absent from the cache triggers exactly one resolver call
and is inserted; a journey id already cached triggers none, its entry's last
position and direction are updated in place, and the output record reflects
the updated position and direction; consequently a second process step on the
same journey id performs zero further resolver calls. -/
theorem c6_resolver_called_once (cache : Cache) (resolver : ℚ → TrainDetails)
    (ev : RawEvent) (hj : ev.journeyId ≠ "") :
    (cache.lookup ev.journeyId = none →
      (processTrain cache resolver ev).2.2 = 1 ∧
      ((processTrain cache resolver ev).2.1).lookup ev.journeyId ≠ none) ∧
    (∀ e, cache.lookup ev.journeyId = some e →
      (processTrain cache resolver ev).2.2 = 0 ∧
      ((processTrain cache resolver ev).2.1).lookup ev.journeyId =
        some { e with last_pos := ev.headLinePosition,
                      direction := determine_direction cache ev.journeyId
                        ev.headLinePosition ev.headLinePosition ev.tailLinePosition } ∧
      (∃ out, (processTrain cache resolver ev).1 = some out ∧
        out.position_meters = ev.headLinePosition ∧
        out.live_status.direction = determine_direction cache ev.journeyId
          ev.headLinePosition ev.headLinePosition ev.tailLinePosition)) ∧
    (∀ (resolver2 : ℚ → TrainDetails) (ev2 : RawEvent),
      ev2.journeyId = ev.journeyId → cache.lookup ev.journeyId = none →
      (processTrain ((processTrain cache resolver ev).2.1) resolver2 ev2).2.2 = 0) := by
  refine ⟨fun hn => ?_, fun e he => ?_, fun resolver2 ev2 hsame hn => ?_⟩
  · simp [processTrain, if_neg hj, hn, List.lookup]
  · refine ⟨?_, ?_, ?_⟩
    · simp [processTrain, if_neg hj, he]
    · simp [processTrain, if_neg hj, he, lookup_updateEntry]
    · simp [processTrain, if_neg hj, he]
  · have hj2 : ev2.journeyId ≠ "" := by rw [hsame]; exact hj
    obtain ⟨e2, hsome⟩ :
        ∃ e2, ((processTrain cache resolver ev).2.1).lookup ev2.journeyId = some e2 := by
      rw [hsame]
      simp [processTrain, if_neg hj, hn, List.lookup]
    generalize hgen : (processTrain cache resolver ev).2.1 = c2 at hsome ⊢
    simp [processTrain, if_neg hj2, hsome]

/-- Witness for C6: the fixture event over the empty cache (first sighting,
one call; repeat sighting after it, zero calls) and over a cache already
holding its journey id (zero calls, in-place update). -/
theorem c6_resolver_called_once_witness :
    ((processTrain [] resolver0 ev0).2.2 = 1 ∧
      ((processTrain [] resolver0 ev0).2.1).lookup ev0.journeyId ≠ none) ∧
    ((processTrain cache0 resolver0 ev0).2.2 = 0 ∧
      ((processTrain cache0 resolver0 ev0).2.1).lookup ev0.journeyId =
        some { entry0 with last_pos := ev0.headLinePosition,
                           direction := determine_direction cache0 ev0.journeyId
                             ev0.headLinePosition ev0.headLinePosition ev0.tailLinePosition } ∧
      (∃ out, (processTrain cache0 resolver0 ev0).1 = some out ∧
        out.position_meters = ev0.headLinePosition ∧
        out.live_status.direction = determine_direction cache0 ev0.journeyId
          ev0.headLinePosition ev0.headLinePosition ev0.tailLinePosition)) ∧
    (processTrain ((processTrain [] resolver0 ev0).2.1) resolver0 ev0).2.2 = 0 := by
  have hj : ev0.journeyId ≠ "" := by simp [ev0]
  have hn : (([] : Cache).lookup ev0.journeyId) = none := rfl
  have he : cache0.lookup ev0.journeyId = some entry0 := by simp [cache0, ev0, List.lookup]
  exact ⟨(c6_resolver_called_once [] resolver0 ev0 hj).1 hn,
    (c6_resolver_called_once cache0 resolver0 ev0 hj).2.1 entry0 he,
    (c6_resolver_called_once [] resolver0 ev0 hj).2.2 resolver0 ev0 rfl hn⟩

/-! ## C5: ordering and range of the emitted optical positions -/

theorem clampTrack_nonneg (x : ℚ) : 0 ≤ clampTrack x := le_max_left 0 _

theorem clampTrack_le (x : ℚ) : clampTrack x ≤ TRACK_LENGTH_METERS := by
  unfold clampTrack
  exact max_le (by norm_num [TRACK_LENGTH_METERS]) (min_le_left _ _)

theorem round_to_two_zero : round_to 2 (0 : ℚ) = 0 := by norm_num [round_to, pyRound]

theorem round_to_two_track : round_to 2 TRACK_LENGTH_METERS = TRACK_LENGTH_METERS := by
  norm_num [round_to, pyRound, TRACK_LENGTH_METERS]

theorem round_to_three_zero : round_to 3 (0 : ℚ) = 0 := by norm_num [round_to, pyRound]

theorem round_to_three_track : round_to 3 TRACK_LENGTH_METERS = TRACK_LENGTH_METERS := by
  norm_num [round_to, pyRound, TRACK_LENGTH_METERS]

theorem round_to_three_neg_one : round_to 3 (-1 : ℚ) = -1 := by norm_num [round_to, pyRound]

theorem round_to_three_track_succ :
    round_to 3 (TRACK_LENGTH_METERS + 1) = TRACK_LENGTH_METERS + 1 := by
  norm_num [round_to, pyRound, TRACK_LENGTH_METERS]

theorem round_to_three_raw_lo : round_to 3 ((2105.71 : ℚ)) = 2105.71 := by
  norm_num [round_to, pyRound]

theorem round_to_three_raw_hi :
    round_to 3 (TRACK_LENGTH_METERS + 2105.71) = TRACK_LENGTH_METERS + 2105.71 := by
  norm_num [round_to, pyRound, TRACK_LENGTH_METERS]

/-- Range of `round_to 2` over `[0, L]`. -/
theorem round_to_two_range {x : ℚ} (h0 : 0 ≤ x) (hL : x ≤ TRACK_LENGTH_METERS) :
    0 ≤ round_to 2 x ∧ round_to 2 x ≤ TRACK_LENGTH_METERS := by
  constructor
  · have := round_to_mono 2 h0; rwa [round_to_two_zero] at this
  · have := round_to_mono 2 hL; rwa [round_to_two_track] at this

/-- Range of `round_to 3` over `[0, L]`. -/
theorem round_to_three_range {x : ℚ} (h0 : 0 ≤ x) (hL : x ≤ TRACK_LENGTH_METERS) :
    0 ≤ round_to 3 x ∧ round_to 3 x ≤ TRACK_LENGTH_METERS := by
  constructor
  · have := round_to_mono 3 h0; rwa [round_to_three_zero] at this
  · have := round_to_mono 3 hL; rwa [round_to_three_track] at this

/-- C5 (amended): in every emitted event `leftOpticalPosition ≤
rightOpticalPosition`, and the position fields derived from the clamped head
and tail (left/right/head/tail optical positions, head/tail line positions and
the midpoint `linePosition`) lie within `[0, TRACK_LENGTH_METERS]`; the
signal optical positions, which add a noise draw of magnitude at most 1 after
clamping, lie within `[-1, TRACK_LENGTH_METERS + 1]`, and the raw optical
positions, which add the 2105.71 calibration offset after clamping, lie
within `[2105.71, TRACK_LENGTH_METERS + 2105.71]`. -/
theorem c5_payload_bounds (t : NCRTCTrain) (dt noise sigL sigR : ℚ) :
    ((t.get_payload dt noise sigL sigR).2.leftOpticalPosition ≤
      (t.get_payload dt noise sigL sigR).2.rightOpticalPosition) ∧
    (0 ≤ (t.get_payload dt noise sigL sigR).2.leftOpticalPosition ∧
      (t.get_payload dt noise sigL sigR).2.rightOpticalPosition ≤ TRACK_LENGTH_METERS) ∧
    (0 ≤ (t.get_payload dt noise sigL sigR).2.headOpticalPosition ∧
      (t.get_payload dt noise sigL sigR).2.headOpticalPosition ≤ TRACK_LENGTH_METERS) ∧
    (0 ≤ (t.get_payload dt noise sigL sigR).2.tailOpticalPosition ∧
      (t.get_payload dt noise sigL sigR).2.tailOpticalPosition ≤ TRACK_LENGTH_METERS) ∧
    (0 ≤ (t.get_payload dt noise sigL sigR).2.headLinePosition ∧
      (t.get_payload dt noise sigL sigR).2.headLinePosition ≤ TRACK_LENGTH_METERS) ∧
    (0 ≤ (t.get_payload dt noise sigL sigR).2.tailLinePosition ∧
      (t.get_payload dt noise sigL sigR).2.tailLinePosition ≤ TRACK_LENGTH_METERS) ∧
    (0 ≤ (t.get_payload dt noise sigL sigR).2.linePosition ∧
      (t.get_payload dt noise sigL sigR).2.linePosition ≤ TRACK_LENGTH_METERS) ∧
    (|sigL| ≤ 1 →
      -1 ≤ (t.get_payload dt noise sigL sigR).2.signalLeftOpticalPosition ∧
      (t.get_payload dt noise sigL sigR).2.signalLeftOpticalPosition ≤
        TRACK_LENGTH_METERS + 1) ∧
    (|sigR| ≤ 1 →
      -1 ≤ (t.get_payload dt noise sigL sigR).2.signalRightOpticalPosition ∧
      (t.get_payload dt noise sigL sigR).2.signalRightOpticalPosition ≤
        TRACK_LENGTH_METERS + 1) ∧
    (2105.71 ≤ (t.get_payload dt noise sigL sigR).2.headOpticalPositionRaw ∧
      (t.get_payload dt noise sigL sigR).2.headOpticalPositionRaw ≤
        TRACK_LENGTH_METERS + 2105.71) ∧
    (2105.71 ≤ (t.get_payload dt noise sigL sigR).2.tailOpticalPositionRaw ∧
      (t.get_payload dt noise sigL sigR).2.tailOpticalPositionRaw ≤
        TRACK_LENGTH_METERS + 2105.71) := by
  simp only [NCRTCTrain.get_payload]
  have hh0 : 0 ≤ (t.update_physics dt noise).1.head_opt := clampTrack_nonneg _
  have hhL : (t.update_physics dt noise).1.head_opt ≤ TRACK_LENGTH_METERS := clampTrack_le _
  have ht0 : 0 ≤ (t.update_physics dt noise).1.tail_opt := clampTrack_nonneg _
  have htL : (t.update_physics dt noise).1.tail_opt ≤ TRACK_LENGTH_METERS := clampTrack_le _
  set h := (t.update_physics dt noise).1.head_opt
  set tl := (t.update_physics dt noise).1.tail_opt
  have hm0 : 0 ≤ min h tl := le_min hh0 ht0
  have hmL : min h tl ≤ TRACK_LENGTH_METERS := le_trans (min_le_left _ _) hhL
  have hM0 : 0 ≤ max h tl := le_trans hh0 (le_max_left _ _)
  have hML : max h tl ≤ TRACK_LENGTH_METERS := max_le hhL htL
  have hmid0 : 0 ≤ (h + tl) / 2 := by positivity
  have hmidL : (h + tl) / 2 ≤ TRACK_LENGTH_METERS := by linarith
  refine ⟨round_to_mono 2 (min_le_max), ⟨(round_to_two_range hm0 hmL).1,
      (round_to_two_range hM0 hML).2⟩,
    round_to_two_range hh0 hhL, round_to_two_range ht0 htL,
    round_to_three_range hh0 hhL, round_to_three_range ht0 htL,
    round_to_three_range hmid0 hmidL, fun hs => ?_, fun hs => ?_, ?_, ?_⟩
  · rw [abs_le] at hs
    constructor
    · have h1 : (-1 : ℚ) ≤ min h tl + sigL := by linarith
      have := round_to_mono 3 h1; rwa [round_to_three_neg_one] at this
    · have h1 : min h tl + sigL ≤ TRACK_LENGTH_METERS + 1 := by linarith
      have := round_to_mono 3 h1; rwa [round_to_three_track_succ] at this
  · rw [abs_le] at hs
    constructor
    · have h1 : (-1 : ℚ) ≤ max h tl + sigR := by linarith
      have := round_to_mono 3 h1; rwa [round_to_three_neg_one] at this
    · have h1 : max h tl + sigR ≤ TRACK_LENGTH_METERS + 1 := by linarith
      have := round_to_mono 3 h1; rwa [round_to_three_track_succ] at this
  · constructor
    · have h1 : (2105.71 : ℚ) ≤ h + 2105.71 := by linarith
      have := round_to_mono 3 h1; rwa [round_to_three_raw_lo] at this
    · have h1 : h + 2105.71 ≤ TRACK_LENGTH_METERS + 2105.71 := by linarith
      have := round_to_mono 3 h1; rwa [round_to_three_raw_hi] at this
  · constructor
    · have h1 : (2105.71 : ℚ) ≤ tl + 2105.71 := by linarith
      have := round_to_mono 3 h1; rwa [round_to_three_raw_lo] at this
    · have h1 : tl + 2105.71 ≤ TRACK_LENGTH_METERS + 2105.71 := by linarith
      have := round_to_mono 3 h1; rwa [round_to_three_raw_hi] at this

/-- Witness for C5 on a freshly spawned forward train with in-range noise. -/
theorem c5_payload_bounds_witness :
    |(1/2 : ℚ)| ≤ 1 ∧
    (-1 ≤ (tSpawned.get_payload 1 0 (1/2) (1/2)).2.signalLeftOpticalPosition ∧
      (tSpawned.get_payload 1 0 (1/2) (1/2)).2.signalLeftOpticalPosition ≤
        TRACK_LENGTH_METERS + 1) ∧
    ((tSpawned.get_payload 1 0 (1/2) (1/2)).2.leftOpticalPosition ≤
      (tSpawned.get_payload 1 0 (1/2) (1/2)).2.rightOpticalPosition) := by
  have hs : |(1/2 : ℚ)| ≤ 1 := by rw [abs_le]; constructor <;> norm_num
  exact ⟨hs, (c5_payload_bounds tSpawned 1 0 (1/2) (1/2)).2.2.2.2.2.2.2.1 hs,
    (c5_payload_bounds tSpawned 1 0 (1/2) (1/2)).1⟩

/-- Counterexample for C5 as frozen: a spawned train at the Sahibabad end with
signal noise draw -1 (a legal `random.uniform(-1, 1)` value) emits
`signalLeftOpticalPosition = -1`, a position field outside
`[0, TRACK_LENGTH_METERS]`. -/
theorem c5_payload_bounds_counterexample :
    |(-1 : ℚ)| ≤ 1 ∧
    (tSpawned.get_payload 0 0 (-1) 0).2.signalLeftOpticalPosition = -1 ∧
    ¬ (0 ≤ (tSpawned.get_payload 0 0 (-1) 0).2.signalLeftOpticalPosition) := by
  have h : (tSpawned.get_payload 0 0 (-1) 0).2.signalLeftOpticalPosition = -1 := by
    norm_num [tSpawned, NCRTCTrain.spawn, NCRTCTrain.get_payload, NCRTCTrain.update_physics,
      NCRTCTrain.head_opt, NCRTCTrain.tail_opt, clampTrack, TRACK_LENGTH_METERS,
      round_to, pyRound]
  refine ⟨by rw [abs_le]; constructor <;> norm_num, h, by rw [h]; norm_num⟩

/-! ## C4: acceleration step and (absence of) overshoot protection -/

/-- C4 (amended): one physics step moves the commanded speed toward the
target at the constant rate 2.0 scaled by the direction sign whenever its
magnitude is strictly below the target magnitude (and leaves it unchanged
otherwise); starting from a magnitude at most the target magnitude, the
updated magnitude is bounded by the target magnitude plus `2·dt` — the step
has no clamp, so it can overshoot the target by up to `2·dt` in one step. -/
theorem c4_speed_step (t : NCRTCTrain) (dt noise : ℚ) (hdt : 0 ≤ dt)
    (hdir : t.direction = 1 ∨ t.direction = -1)
    (hb : |t.current_speed| ≤ |t.target_speed|) :
    ((t.update_physics dt noise).1.current_speed =
      if |t.current_speed| < |t.target_speed| then
        t.current_speed + 2 * (t.direction : ℚ) * dt
      else t.current_speed) ∧
    |(t.update_physics dt noise).1.current_speed| ≤ |t.target_speed| + 2 * dt := by
  have heq : (t.update_physics dt noise).1.current_speed =
      if |t.current_speed| < |t.target_speed| then
        t.current_speed + 2 * (t.direction : ℚ) * dt
      else t.current_speed := rfl
  refine ⟨heq, ?_⟩
  rw [heq]
  have habs : |2 * (t.direction : ℚ) * dt| = 2 * dt := by
    rcases hdir with hd | hd <;> rw [hd] <;> push_cast <;>
      rw [abs_mul, abs_of_nonneg hdt] <;> norm_num
  split_ifs with hc
  · calc |t.current_speed + 2 * (t.direction : ℚ) * dt|
        ≤ |t.current_speed| + |2 * (t.direction : ℚ) * dt| := abs_add _ _
      _ ≤ |t.target_speed| + 2 * dt := by rw [habs]; exact add_le_add_right hb _
  · have : (0:ℚ) ≤ 2 * dt := by linarith
    linarith

/-- Witness for C4 (amended) at a concrete accelerating train. -/
theorem c4_speed_step_witness :
    ((tAccel.update_physics 1 0).1.current_speed =
      if |tAccel.current_speed| < |tAccel.target_speed| then
        tAccel.current_speed + 2 * (tAccel.direction : ℚ) * 1
      else tAccel.current_speed) ∧
    |(tAccel.update_physics 1 0).1.current_speed| ≤ |tAccel.target_speed| + 2 * 1 :=
  c4_speed_step tAccel 1 0 (by norm_num) (Or.inl rfl)
    (by rw [show tAccel.current_speed = 29 from rfl, show tAccel.target_speed = 30 from rfl]
        rw [abs_of_nonneg (by norm_num : (0:ℚ) ≤ 29), abs_of_nonneg (by norm_num : (0:ℚ) ≤ 30)]
        norm_num)

/-- Counterexample for C4 as frozen: with commanded speed 29 at most the
target magnitude 30 and a one-second step, the updated commanded speed is 31,
strictly above the target magnitude — the step overshoots. -/
theorem c4_speed_step_counterexample :
    |tAccel.current_speed| ≤ |tAccel.target_speed| ∧
    (tAccel.update_physics 1 0).1.current_speed = 31 ∧
    |tAccel.target_speed| < |(tAccel.update_physics 1 0).1.current_speed| := by
  have h29 : tAccel.current_speed = 29 := rfl
  have h30 : tAccel.target_speed = 30 := rfl
  have hstep : (tAccel.update_physics 1 0).1.current_speed = 31 := by
    norm_num [tAccel, NCRTCTrain.update_physics,
      abs_of_nonneg (by norm_num : (0:ℚ) ≤ 29), abs_of_nonneg (by norm_num : (0:ℚ) ≤ 30)]
  refine ⟨?_, hstep, ?_⟩
  · rw [h29, h30, abs_of_nonneg (by norm_num : (0:ℚ) ≤ 29),
      abs_of_nonneg (by norm_num : (0:ℚ) ≤ 30)]
    norm_num
  · rw [h30, hstep, abs_of_nonneg (by norm_num : (0:ℚ) ≤ 31),
      abs_of_nonneg (by norm_num : (0:ℚ) ≤ 30)]
    norm_num

/-! ## C3: when a finished train leaves the fleet -/

/-- The collection loop distributes over list append, shifting the
random-input index by the length of the first part. -/
theorem collectTrains_append (ins : ℕ → AdvIn) (i : ℕ) (l₁ l₂ : List NCRTCTrain) :
    collectTrains ins i (l₁ ++ l₂) =
      ((collectTrains ins i l₁).1 ++ (collectTrains ins (i + l₁.length) l₂).1,
       (collectTrains ins i l₁).2 ++ (collectTrains ins (i + l₁.length) l₂).2) := by
  induction l₁ generalizing i with
  | nil => simp [collectTrains]
  | cons t ts ih =>
    simp only [List.cons_append, collectTrains, List.length_cons, List.append_eq]
    have hn : i + 1 + ts.length = i + (ts.length + 1) := by omega
    by_cases h : t.is_finished
    · rw [if_pos h, if_pos h, ih, hn]
    · rw [if_neg h, if_neg h, ih, hn]
      simp

/-- C3 (amended): consider any fleet `pre ++ t :: post` at a `tick` call,
and let `tail2` be `post` extended with the spawned train, if any.  If `t`'s
`is_finished` flag is already set when the tick starts, `t` is removed in
this call and contributes no event.  If the flag is not yet set — in
particular when `t` becomes finished during this very call — `t` is advanced,
its (final) event is included in the returned batch, and the advanced train
stays in the returned fleet; such a train is therefore removed only by the
next `tick` call, strictly after its final event was emitted. -/
theorem c3_tick_lifecycle (pre post : List NCRTCTrain) (t : NCRTCTrain) (o : TickOracle) :
    (t.is_finished = true →
      SimulationManager.tick (pre ++ t :: post) o =
        ((collectTrains o.ins 0 pre).1 ++
          (collectTrains o.ins (pre.length + 1)
            (post ++ (if (pre ++ t :: post).length < 4 ∧ o.spawnRoll = true
                      then [o.newTrain] else []))).1,
         (collectTrains o.ins 0 pre).2 ++
          (collectTrains o.ins (pre.length + 1)
            (post ++ (if (pre ++ t :: post).length < 4 ∧ o.spawnRoll = true
                      then [o.newTrain] else []))).2)) ∧
    (t.is_finished = false →
      SimulationManager.tick (pre ++ t :: post) o =
        ((collectTrains o.ins 0 pre).1 ++
          (t.get_payload (o.ins pre.length).dt (o.ins pre.length).noise
              (o.ins pre.length).sigL (o.ins pre.length).sigR).1 ::
          (collectTrains o.ins (pre.length + 1)
            (post ++ (if (pre ++ t :: post).length < 4 ∧ o.spawnRoll = true
                      then [o.newTrain] else []))).1,
         (collectTrains o.ins 0 pre).2 ++
          (t.get_payload (o.ins pre.length).dt (o.ins pre.length).noise
              (o.ins pre.length).sigL (o.ins pre.length).sigR).2 ::
          (collectTrains o.ins (pre.length + 1)
            (post ++ (if (pre ++ t :: post).length < 4 ∧ o.spawnRoll = true
                      then [o.newTrain] else []))).2)) := by
  have hs1 :
      (if (pre ++ t :: post).length < 4 ∧ o.spawnRoll = true
       then (pre ++ t :: post) ++ [o.newTrain] else (pre ++ t :: post)) =
        pre ++ t :: (post ++ (if (pre ++ t :: post).length < 4 ∧ o.spawnRoll = true
                              then [o.newTrain] else [])) := by
    split_ifs <;> simp
  constructor
  · intro hf
    unfold SimulationManager.tick
    rw [hs1, collectTrains_append]
    simp only [collectTrains, hf, eq_self_iff_true, if_true, Nat.zero_add]
  · intro hf
    unfold SimulationManager.tick
    rw [hs1, collectTrains_append]
    simp only [collectTrains, hf]
    simp only [Bool.false_eq_true, if_false, Nat.zero_add]

/-- Witness for C3 (amended): a singleton fleet with the near-end running
train (flag still false this tick, so its final event is emitted and the
train stays), and a singleton fleet with an already-flagged train (removed,
no event). -/
theorem c3_tick_lifecycle_witness :
    (SimulationManager.tick [tNearEnd] oUnit =
      ((collectTrains oUnit.ins 0 []).1 ++
        (tNearEnd.get_payload (oUnit.ins 0).dt (oUnit.ins 0).noise
            (oUnit.ins 0).sigL (oUnit.ins 0).sigR).1 ::
        (collectTrains oUnit.ins 1
          ([] ++ (if ([tNearEnd] : List NCRTCTrain).length < 4 ∧ oUnit.spawnRoll = true
                  then [oUnit.newTrain] else []))).1,
       (collectTrains oUnit.ins 0 []).2 ++
        (tNearEnd.get_payload (oUnit.ins 0).dt (oUnit.ins 0).noise
            (oUnit.ins 0).sigL (oUnit.ins 0).sigR).2 ::
        (collectTrains oUnit.ins 1
          ([] ++ (if ([tNearEnd] : List NCRTCTrain).length < 4 ∧ oUnit.spawnRoll = true
                  then [oUnit.newTrain] else []))).2)) ∧
    (SimulationManager.tick [{ tNearEnd with is_finished := true }] oUnit =
      ((collectTrains oUnit.ins 0 []).1 ++
        (collectTrains oUnit.ins 1
          ([] ++ (if ([{ tNearEnd with is_finished := true }] : List NCRTCTrain).length < 4 ∧
                      oUnit.spawnRoll = true
                  then [oUnit.newTrain] else []))).1,
       (collectTrains oUnit.ins 0 []).2 ++
        (collectTrains oUnit.ins 1
          ([] ++ (if ([{ tNearEnd with is_finished := true }] : List NCRTCTrain).length < 4 ∧
                      oUnit.spawnRoll = true
                  then [oUnit.newTrain] else []))).2)) := by
  constructor
  · exact (c3_tick_lifecycle [] [] tNearEnd oUnit).2 rfl
  · exact (c3_tick_lifecycle [] [] { tNearEnd with is_finished := true } oUnit).1 rfl

/-- Counterexample for C3 as frozen: the near-end train becomes finished
during this very tick (flag false before, true after), its final event is in
the batch, yet the train is still a member of the returned fleet — it is not
removed in the same call. -/
theorem c3_tick_lifecycle_counterexample :
    tNearEnd.is_finished = false ∧
    (SimulationManager.tick [tNearEnd] oUnit).1.map (fun t => t.is_finished) = [true] ∧
    (SimulationManager.tick [tNearEnd] oUnit).1.length = 1 ∧
    (SimulationManager.tick [tNearEnd] oUnit).2.length = 1 := by
  refine ⟨rfl, ?_, ?_, ?_⟩ <;>
    norm_num [SimulationManager.tick, collectTrains, NCRTCTrain.get_payload,
      NCRTCTrain.update_physics, tNearEnd, oUnit, TRACK_LENGTH_METERS]

/-! ## C7: the fleet never exceeds 4 concurrent trains -/

/-- The collection loop never grows the fleet. -/
theorem collectTrains_length_le (ins : ℕ → AdvIn) (i : ℕ) (s : List NCRTCTrain) :
    (collectTrains ins i s).1.length ≤ s.length := by
  induction s generalizing i with
  | nil => simp [collectTrains]
  | cons t ts ih =>
    simp only [collectTrains, List.length_cons]
    by_cases h : t.is_finished
    · rw [if_pos h]
      exact le_trans (ih (i + 1)) (Nat.le_succ _)
    · rw [if_neg h]
      simpa using Nat.succ_le_succ (ih (i + 1))

/-- One tick keeps the fleet within the bound of 4. -/
theorem tick_length_le (s : List NCRTCTrain) (o : TickOracle) (h : s.length ≤ 4) :
    (SimulationManager.tick s o).1.length ≤ 4 := by
  unfold SimulationManager.tick
  split_ifs with hc
  · refine le_trans (collectTrains_length_le _ _ _) ?_
    simp only [List.length_append, List.length_singleton]
    omega
  · exact le_trans (collectTrains_length_le _ _ _) h

/-- C7: every fleet state reachable from the empty fleet by tick calls holds
at most 4 concurrently active trains: a train is spawned only when fewer than
4 are active, at most one per tick, and the loop only removes. -/
theorem c7_fleet_bound (s : List NCRTCTrain) (h : SimulationManager.Reachable s) :
    s.length ≤ 4 := by
  induction h with
  | init => simp
  | step s o _ ih => exact tick_length_le s o ih

/-- Witness for C7 at the initial empty fleet. -/
theorem c7_fleet_bound_witness : ([] : List NCRTCTrain).length ≤ 4 :=
  c7_fleet_bound [] SimulationManager.Reachable.init

/-! ## C10: geometry of simulated events dominates the classifier -/

/-- C10 (amended): for an event emitted by a simulated train whose clamped
head and tail positions differ by more than 10 + 1/1000 meters (the extra
1/1000 absorbs the 3-decimal rounding of the emitted line positions), the
classifier run on that event as the pipeline runs it — current and head both
the head line position — returns FORWARD for a direction +1 train and
BACKWARD for a direction -1 train, whatever the cache holds and whatever the
speed, so STOP is never returned for such a mid-corridor event. -/
theorem c10_geometry_dominates (t : NCRTCTrain) (dt noise sigL sigR : ℚ) (cache : Cache) :
    (t.direction = 1 →
      10 + 1/1000 <
        (t.update_physics dt noise).1.head_opt - (t.update_physics dt noise).1.tail_opt →
      determine_direction cache (t.get_payload dt noise sigL sigR).2.journeyId
        (t.get_payload dt noise sigL sigR).2.headLinePosition
        (t.get_payload dt noise sigL sigR).2.headLinePosition
        (t.get_payload dt noise sigL sigR).2.tailLinePosition = Direction.FORWARD) ∧
    (t.direction = -1 →
      10 + 1/1000 <
        (t.update_physics dt noise).1.tail_opt - (t.update_physics dt noise).1.head_opt →
      determine_direction cache (t.get_payload dt noise sigL sigR).2.journeyId
        (t.get_payload dt noise sigL sigR).2.headLinePosition
        (t.get_payload dt noise sigL sigR).2.headLinePosition
        (t.get_payload dt noise sigL sigR).2.tailLinePosition = Direction.BACKWARD) := by
  have hhead : (t.get_payload dt noise sigL sigR).2.headLinePosition =
      round_to 3 (t.update_physics dt noise).1.head_opt := rfl
  have htail : (t.get_payload dt noise sigL sigR).2.tailLinePosition =
      round_to 3 (t.update_physics dt noise).1.tail_opt := rfl
  have ha := le_round_to_add 3 ((t.update_physics dt noise).1.head_opt)
  have hb := round_to_le_add 3 ((t.update_physics dt noise).1.head_opt)
  have hc := le_round_to_add 3 ((t.update_physics dt noise).1.tail_opt)
  have hd := round_to_le_add 3 ((t.update_physics dt noise).1.tail_opt)
  norm_num at ha hb hc hd
  constructor
  · intro _ hgap
    rw [hhead, htail]
    have h1 : round_to 3 (t.update_physics dt noise).1.tail_opt + 10 <
        round_to 3 (t.update_physics dt noise).1.head_opt := by linarith
    simp [determine_direction, h1]
  · intro _ hgap
    rw [hhead, htail]
    have h1 : round_to 3 (t.update_physics dt noise).1.head_opt <
        round_to 3 (t.update_physics dt noise).1.tail_opt - 10 := by linarith
    have h2 : ¬ (round_to 3 (t.update_physics dt noise).1.tail_opt + 10 <
        round_to 3 (t.update_physics dt noise).1.head_opt) := by linarith
    simp [determine_direction, h1, h2]

/-- Witness for C10 (amended) on the near-end fixture train, whose clamped
head/tail gap is the full train length. -/
theorem c10_geometry_dominates_witness :
    tNearEnd.direction = 1 ∧
    (10 + 1/1000 <
      (tNearEnd.update_physics 1 0).1.head_opt - (tNearEnd.update_physics 1 0).1.tail_opt) ∧
    determine_direction [] (tNearEnd.get_payload 1 0 0 0).2.journeyId
      (tNearEnd.get_payload 1 0 0 0).2.headLinePosition
      (tNearEnd.get_payload 1 0 0 0).2.headLinePosition
      (tNearEnd.get_payload 1 0 0 0).2.tailLinePosition = Direction.FORWARD := by
  have hgap : 10 + 1/1000 <
      (tNearEnd.update_physics 1 0).1.head_opt - (tNearEnd.update_physics 1 0).1.tail_opt := by
    norm_num [tNearEnd, NCRTCTrain.update_physics, NCRTCTrain.head_opt, NCRTCTrain.tail_opt,
      clampTrack, TRACK_LENGTH_METERS,
      abs_of_nonneg (by norm_num : (0:ℚ) ≤ 30)]
  exact ⟨rfl, hgap, (c10_geometry_dominates tNearEnd 1 0 0 0 []).1 rfl hgap⟩

/-- Counterexample for C10 as frozen: a direction +1 train lands at
10.0004 m, so its clamped head/tail gap is 10.0004 > 10 meters, yet the
emitted line positions round to 10 and 0 and the classifier — with no cache
entry — returns STOP, not FORWARD. -/
theorem c10_geometry_dominates_counterexample :
    tBoundary.direction = 1 ∧
    (10 <
      (tBoundary.update_physics (2/7) 0).1.head_opt -
        (tBoundary.update_physics (2/7) 0).1.tail_opt) ∧
    determine_direction [] (tBoundary.get_payload (2/7) 0 0 0).2.journeyId
      (tBoundary.get_payload (2/7) 0 0 0).2.headLinePosition
      (tBoundary.get_payload (2/7) 0 0 0).2.headLinePosition
      (tBoundary.get_payload (2/7) 0 0 0).2.tailLinePosition = Direction.STOP := by
  have hH : (tBoundary.get_payload (2/7) 0 0 0).2.headLinePosition = 10 := by
    norm_num [tBoundary, NCRTCTrain.get_payload, NCRTCTrain.update_physics,
      NCRTCTrain.head_opt, NCRTCTrain.tail_opt, clampTrack, TRACK_LENGTH_METERS,
      round_to, pyRound]
  have hT : (tBoundary.get_payload (2/7) 0 0 0).2.tailLinePosition = 0 := by
    norm_num [tBoundary, NCRTCTrain.get_payload, NCRTCTrain.update_physics,
      NCRTCTrain.head_opt, NCRTCTrain.tail_opt, clampTrack, TRACK_LENGTH_METERS,
      round_to, pyRound]
  have hJ : (tBoundary.get_payload (2/7) 0 0 0).2.journeyId = "J1" := rfl
  refine ⟨rfl, ?_, ?_⟩
  · norm_num [tBoundary, NCRTCTrain.update_physics, NCRTCTrain.head_opt, NCRTCTrain.tail_opt,
      clampTrack, TRACK_LENGTH_METERS]
  · rw [hH, hT, hJ]
    norm_num [determine_direction, List.lookup]

/-! ## C9: spawned trains eventually finish -/

/-- One physics step never clears the finished flag. -/
theorem update_physics_finished_mono (t : NCRTCTrain) (dt noise : ℚ)
    (h : t.is_finished = true) : (t.update_physics dt noise).1.is_finished = true := by
  have hfin : (t.update_physics dt noise).1.is_finished =
      (if t.direction = 1 ∧
            TRACK_LENGTH_METERS ≤ (t.update_physics dt noise).1.current_pos_meters then true
       else if t.direction = -1 ∧ (t.update_physics dt noise).1.current_pos_meters ≤ 0 then true
       else t.is_finished) := rfl
  rw [hfin]
  split_ifs <;> simp [h]

/-- One physics step sets the finished flag when the updated position crosses
the endpoint matching the direction of travel. -/
theorem update_physics_sets_finished (t : NCRTCTrain) (dt noise : ℚ) :
    (t.direction = 1 →
      TRACK_LENGTH_METERS ≤ (t.update_physics dt noise).1.current_pos_meters →
      (t.update_physics dt noise).1.is_finished = true) ∧
    (t.direction = -1 →
      (t.update_physics dt noise).1.current_pos_meters ≤ 0 →
      (t.update_physics dt noise).1.is_finished = true) := by
  have hfin : (t.update_physics dt noise).1.is_finished =
      (if t.direction = 1 ∧
            TRACK_LENGTH_METERS ≤ (t.update_physics dt noise).1.current_pos_meters then true
       else if t.direction = -1 ∧ (t.update_physics dt noise).1.current_pos_meters ≤ 0 then true
       else t.is_finished) := rfl
  constructor
  · intro hd hp
    rw [hfin, if_pos ⟨hd, hp⟩]
  · intro hd hp
    rw [hfin]
    by_cases h1 : t.direction = 1 ∧
        TRACK_LENGTH_METERS ≤ (t.update_physics dt noise).1.current_pos_meters
    · rw [if_pos h1]
    · rw [if_neg h1, if_pos ⟨hd, hp⟩]

/-- The finished flag is terminal along any run. -/
theorem runTrain_finished_mono (t : NCRTCTrain) (ins : ℕ → ℚ × ℚ) (n k : ℕ)
    (h : (runTrain t ins n).is_finished = true) :
    (runTrain t ins (n + k)).is_finished = true := by
  induction k with
  | zero => exact h
  | succ k ih => exact update_physics_finished_mono _ _ _ ih

/-- The direction is fixed along any run. -/
theorem runTrain_direction (t : NCRTCTrain) (ins : ℕ → ℚ × ℚ) (n : ℕ) :
    (runTrain t ins n).direction = t.direction := by
  induction n with
  | zero => rfl
  | succ n ih => exact ih

/-- The target speed is fixed along any run. -/
theorem runTrain_target (t : NCRTCTrain) (ins : ℕ → ℚ × ℚ) (n : ℕ) :
    (runTrain t ins n).target_speed = t.target_speed := by
  induction n with
  | zero => rfl
  | succ n ih => exact ih

/-- Escape lemma for C9: a train travelling in direction `σ` (±1) with a
target-speed magnitude of at least 28, driven by steps of duration at least
`dtmin > 0` and speed noise of magnitude at most 1/2, pushes `σ ·
position` past any bound after at least one step: the commanded speed ramps
up by at least `2·dtmin` per step until its magnitude reaches 28, after
which the position advances by at least `27.5·dtmin` per step. -/
theorem runTrain_escapes (t0 : NCRTCTrain) (ins : ℕ → ℚ × ℚ) (σ : ℤ) (dtmin : ℚ)
    (hσ : σ = 1 ∨ σ = -1) (hdir : t0.direction = σ)
    (htg : 28 ≤ (σ : ℚ) * t0.target_speed)
    (hs0 : 0 ≤ (σ : ℚ) * t0.current_speed)
    (hdt : 0 < dtmin) (hins : ∀ i, dtmin ≤ (ins i).1)
    (hnoise : ∀ i, |(ins i).2| ≤ 1/2) (C : ℚ) :
    ∃ n, 1 ≤ n ∧ C ≤ (σ : ℚ) * (runTrain t0 ins n).current_pos_meters := by
  set A := runTrain t0 ins with hA
  have hstep : ∀ n, (A (n + 1)).current_speed =
      (if |(A n).current_speed| < |(A n).target_speed| then
        (A n).current_speed + 2 * ((A n).direction : ℚ) * (ins n).1
      else (A n).current_speed) := fun n => rfl
  have hposstep : ∀ n, (A (n + 1)).current_pos_meters =
      (A n).current_pos_meters + ((A (n + 1)).current_speed + (ins n).2) * (ins n).1 :=
    fun n => rfl
  have hdirn : ∀ n, (A n).direction = σ := fun n =>
    (runTrain_direction t0 ins n).trans hdir
  have htgn : ∀ n, (A n).target_speed = t0.target_speed := fun n => runTrain_target t0 ins n
  have hσq : (σ : ℚ) = 1 ∨ (σ : ℚ) = -1 := by
    rcases hσ with h | h <;> subst h
    · left; norm_num
    · right; norm_num
  have habs : ∀ s : ℚ, 0 ≤ (σ : ℚ) * s → |s| = (σ : ℚ) * s := by
    intro s hs
    rcases hσq with h | h <;> rw [h] at hs ⊢
    · rw [one_mul] at hs ⊢; exact abs_of_nonneg hs
    · rw [neg_one_mul] at hs ⊢
      rw [abs_of_nonpos (by linarith)]
  have hmulσ : ∀ s d : ℚ, (σ : ℚ) * (s + 2 * (σ : ℚ) * d) = (σ : ℚ) * s + 2 * d := by
    intro s d
    rcases hσq with h | h <;> rw [h] <;> ring
  have hTabs : ∀ n, |(A n).target_speed| = (σ : ℚ) * t0.target_speed := by
    intro n
    rw [htgn n]
    exact habs _ (by linarith)
  have key : ∀ n, 0 ≤ (σ : ℚ) * (A n).current_speed →
      ((σ : ℚ) * (A (n + 1)).current_speed = (σ : ℚ) * (A n).current_speed ∧
        (σ : ℚ) * t0.target_speed ≤ (σ : ℚ) * (A n).current_speed) ∨
      ((σ : ℚ) * (A (n + 1)).current_speed = (σ : ℚ) * (A n).current_speed + 2 * (ins n).1 ∧
        (σ : ℚ) * (A n).current_speed < (σ : ℚ) * t0.target_speed) := by
    intro n h0
    rw [hstep n, hdirn n]
    split_ifs with hc
    · right
      refine ⟨hmulσ _ _, ?_⟩
      rw [habs _ h0, hTabs n] at hc
      exact hc
    · left
      refine ⟨rfl, ?_⟩
      rw [not_lt, habs _ h0, hTabs n] at hc
      exact hc
  have hinv : ∀ n, 0 ≤ (σ : ℚ) * (A n).current_speed ∧
      (28 ≤ (σ : ℚ) * (A n).current_speed ∨
        2 * dtmin * n ≤ (σ : ℚ) * (A n).current_speed) := by
    intro n
    induction n with
    | zero => exact ⟨hs0, Or.inr (by simpa using hs0)⟩
    | succ n ih =>
      obtain ⟨ih0, ihg⟩ := ih
      have hk := key n ih0
      constructor
      · rcases hk with ⟨h, _⟩ | ⟨h, _⟩
        · rw [h]; exact ih0
        · rw [h]; have := hins n; linarith
      · rcases hk with ⟨h, hge⟩ | ⟨h, _⟩
        · left; rw [h]; linarith
        · rcases ihg with h28 | hgrow
          · left; rw [h]; have := hins n; linarith
          · right
            rw [h]
            have := hins n
            push_cast
            linarith
  obtain ⟨N0, hN0⟩ := exists_nat_gt ((14 : ℚ) / dtmin)
  have hvN : 28 ≤ (σ : ℚ) * (A N0).current_speed := by
    rcases (hinv N0).2 with h | h
    · exact h
    · rw [div_lt_iff₀ hdt] at hN0
      linarith
  have hphase : ∀ j, 28 ≤ (σ : ℚ) * (A (N0 + j)).current_speed ∧
      (σ : ℚ) * (A N0).current_pos_meters + (55 / 2) * dtmin * j ≤
        (σ : ℚ) * (A (N0 + j)).current_pos_meters := by
    intro j
    induction j with
    | zero => exact ⟨hvN, by simp⟩
    | succ j ih =>
      obtain ⟨ihv, ihy⟩ := ih
      rw [← Nat.add_assoc]
      have hv2 : 28 ≤ (σ : ℚ) * (A (N0 + j + 1)).current_speed := by
        rcases key (N0 + j) (hinv (N0 + j)).1 with ⟨h, _⟩ | ⟨h, _⟩
        · rw [h]; exact ihv
        · rw [h]; have := hins (N0 + j); linarith
      refine ⟨hv2, ?_⟩
      have hnσ : -(1/2 : ℚ) ≤ (σ : ℚ) * (ins (N0 + j)).2 := by
        have h1 := hnoise (N0 + j)
        rw [abs_le] at h1
        rcases hσq with h | h <;> rw [h] <;> linarith
      have hexp : (σ : ℚ) * (A (N0 + j + 1)).current_pos_meters =
          (σ : ℚ) * (A (N0 + j)).current_pos_meters +
            ((σ : ℚ) * (A (N0 + j + 1)).current_speed +
              (σ : ℚ) * (ins (N0 + j)).2) * (ins (N0 + j)).1 := by
        rw [hposstep (N0 + j)]
        ring
      have h1 : (55/2 : ℚ) ≤ (σ : ℚ) * (A (N0 + j + 1)).current_speed +
          (σ : ℚ) * (ins (N0 + j)).2 := by linarith
      have hrate : (55/2 : ℚ) * dtmin ≤
          ((σ : ℚ) * (A (N0 + j + 1)).current_speed +
            (σ : ℚ) * (ins (N0 + j)).2) * (ins (N0 + j)).1 :=
        mul_le_mul h1 (hins (N0 + j)) (le_of_lt hdt) (by linarith)
      rw [hexp]
      push_cast
      linarith
  obtain ⟨j0, hj0⟩ := exists_nat_gt ((C - (σ : ℚ) * (A N0).current_pos_meters) /
    ((55 / 2) * dtmin))
  have h55 : (0 : ℚ) < (55 / 2) * dtmin := by positivity
  have hj0' : C - (σ : ℚ) * (A N0).current_pos_meters < (55 / 2) * dtmin * j0 := by
    rw [div_lt_iff₀ h55] at hj0
    linarith
  refine ⟨N0 + j0 + 1, by omega, ?_⟩
  have hp1 := (hphase (j0 + 1)).2
  rw [← Nat.add_assoc] at hp1
  push_cast at hp1
  linarith

/-- C9: a train spawned with direction +1 and advanced repeatedly with
positive, bounded time deltas (and legal speed noise) eventually has
`is_finished = true` with position at least `TRACK_LENGTH_METERS`; a train
spawned with direction -1 eventually has `is_finished = true` with position
at most 0; and the finished flag is terminal once set. -/
theorem c9_spawned_trains_terminate (u dtmin dtmax : ℚ) (ins : ℕ → ℚ × ℚ)
    (jid sid : String) (hu1 : 28 ≤ u) (hu2 : u ≤ 42) (hdt : 0 < dtmin)
    (hins : ∀ i, dtmin ≤ (ins i).1 ∧ (ins i).1 ≤ dtmax)
    (hnoise : ∀ i, |(ins i).2| ≤ 1/2) :
    (∃ n, (runTrain (NCRTCTrain.spawn jid sid 1 u) ins n).is_finished = true ∧
      TRACK_LENGTH_METERS ≤
        (runTrain (NCRTCTrain.spawn jid sid 1 u) ins n).current_pos_meters) ∧
    (∃ n, (runTrain (NCRTCTrain.spawn jid sid (-1) u) ins n).is_finished = true ∧
      (runTrain (NCRTCTrain.spawn jid sid (-1) u) ins n).current_pos_meters ≤ 0) ∧
    (∀ (t : NCRTCTrain) (n k : ℕ), (runTrain t ins n).is_finished = true →
      (runTrain t ins (n + k)).is_finished = true) := by
  have hins1 : ∀ i, dtmin ≤ (ins i).1 := fun i => (hins i).1
  refine ⟨?_, ?_, fun t n k h => runTrain_finished_mono t ins n k h⟩
  · have hdir : (NCRTCTrain.spawn jid sid 1 u).direction = 1 := by
      norm_num [NCRTCTrain.spawn]
    have htgt : (NCRTCTrain.spawn jid sid 1 u).target_speed = u := by
      norm_num [NCRTCTrain.spawn]
    have hspd : (NCRTCTrain.spawn jid sid 1 u).current_speed = 0 := by
      norm_num [NCRTCTrain.spawn]
    obtain ⟨n, hn1, hC⟩ := runTrain_escapes (NCRTCTrain.spawn jid sid 1 u) ins 1 dtmin
      (Or.inl rfl) hdir (by rw [htgt]; push_cast; linarith)
      (by rw [hspd]; norm_num) hdt hins1 hnoise TRACK_LENGTH_METERS
    have hposL : TRACK_LENGTH_METERS ≤
        (runTrain (NCRTCTrain.spawn jid sid 1 u) ins n).current_pos_meters := by
      push_cast at hC
      linarith
    obtain ⟨m, rfl⟩ : ∃ m, n = m + 1 := ⟨n - 1, by omega⟩
    have hdm : (runTrain (NCRTCTrain.spawn jid sid 1 u) ins m).direction = 1 :=
      (runTrain_direction _ ins m).trans hdir
    have hfin : (runTrain (NCRTCTrain.spawn jid sid 1 u) ins (m + 1)).is_finished = true :=
      (update_physics_sets_finished (runTrain (NCRTCTrain.spawn jid sid 1 u) ins m)
        (ins m).1 (ins m).2).1 hdm hposL
    exact ⟨m + 1, hfin, hposL⟩
  · have hdir : (NCRTCTrain.spawn jid sid (-1) u).direction = -1 := by
      norm_num [NCRTCTrain.spawn]
    have htgt : (NCRTCTrain.spawn jid sid (-1) u).target_speed = -u := by
      norm_num [NCRTCTrain.spawn]
    have hspd : (NCRTCTrain.spawn jid sid (-1) u).current_speed = 0 := by
      norm_num [NCRTCTrain.spawn]
    obtain ⟨n, hn1, hC⟩ := runTrain_escapes (NCRTCTrain.spawn jid sid (-1) u) ins (-1) dtmin
      (Or.inr rfl) hdir (by rw [htgt]; push_cast; linarith)
      (by rw [hspd]; norm_num) hdt hins1 hnoise 0
    have hpos0 : (runTrain (NCRTCTrain.spawn jid sid (-1) u) ins n).current_pos_meters ≤ 0 := by
      push_cast at hC
      linarith
    obtain ⟨m, rfl⟩ : ∃ m, n = m + 1 := ⟨n - 1, by omega⟩
    have hdm : (runTrain (NCRTCTrain.spawn jid sid (-1) u) ins m).direction = -1 :=
      (runTrain_direction _ ins m).trans hdir
    have hfin : (runTrain (NCRTCTrain.spawn jid sid (-1) u) ins (m + 1)).is_finished = true :=
      (update_physics_sets_finished (runTrain (NCRTCTrain.spawn jid sid (-1) u) ins m)
        (ins m).1 (ins m).2).2 hdm hpos0
    exact ⟨m + 1, hfin, hpos0⟩

/-- Witness for C9 with target speed 28, unit time steps and zero noise. -/
theorem c9_spawned_trains_terminate_witness :
    (∃ n, (runTrain (NCRTCTrain.spawn "J1" "S1" 1 28) (fun _ => (1, 0)) n).is_finished = true ∧
      TRACK_LENGTH_METERS ≤
        (runTrain (NCRTCTrain.spawn "J1" "S1" 1 28) (fun _ => (1, 0)) n).current_pos_meters) ∧
    (∃ n, (runTrain (NCRTCTrain.spawn "J1" "S1" (-1) 28) (fun _ => (1, 0)) n).is_finished = true ∧
      (runTrain (NCRTCTrain.spawn "J1" "S1" (-1) 28) (fun _ => (1, 0)) n).current_pos_meters ≤ 0) ∧
    (∀ (t : NCRTCTrain) (n k : ℕ),
      (runTrain t (fun _ => (1, 0)) n).is_finished = true →
      (runTrain t (fun _ => (1, 0)) (n + k)).is_finished = true) :=
  c9_spawned_trains_terminate 28 1 1 (fun _ => (1, 0)) "J1" "S1"
    (by norm_num) (by norm_num) (by norm_num)
    (fun i => ⟨le_refl 1, le_refl 1⟩) (fun i => by norm_num)

end Ncrtc
